import Mathlib

/-!
Verification of the polling application's voting service.

The definitions below are a shallow embedding of the TypeScript source:

* `submitVote`, `hasUserVoted`, `getPollResults`, the notification callback of
  `subscribeToResults` (all from `lib/votes`),
* `deletePoll` (from `lib/polls`),
* the `POST` handler and its zod `pollSchema` (from `app/api/polls/route.ts`).

The Supabase relational store is modelled as an explicit `Store` value holding
the `polls` and `votes` tables; every round trip to the store reads or rewrites
that value.  Timestamps are natural numbers, option indices are integers
(JavaScript numbers may be negative), and each distinct error message produced
by the source is one constructor of `VoteError`.
-/

namespace PollApp

/-- Row of the `polls` table (`types/supabase`): `id, created_at, question,
options, created_by, expires_at, is_public`. -/
structure Poll where
  id : String
  created_at : Nat
  question : String
  options : List String
  created_by : String
  expires_at : Option Nat
  is_public : Bool
deriving DecidableEq

/-- Row of the `votes` table (`types/supabase`): `id, created_at, poll_id,
user_id, option_index`. -/
structure Vote where
  id : String
  created_at : Nat
  poll_id : String
  user_id : String
  option_index : Int
deriving DecidableEq

/-- The relational store: the two tables the voting service touches. -/
structure Store where
  polls : List Poll
  votes : List Vote
deriving DecidableEq

/-- The error values the embedded operations can produce.  Each constructor
stands for one distinct `Error` the source constructs, plus `duplicateKey` for
the unique-constraint violation surfaced by a vote insert. -/
inductive VoteError where
  | alreadyVoted    -- new Error('User has already voted on this poll')
  | pollNotFound    -- new Error('Poll not found')
  | pollExpired     -- new Error('Poll has expired')
  | invalidOption   -- new Error('Invalid option index')
  | duplicateKey    -- raw store error: unique constraint (poll_id, user_id)
  | notAuthorized   -- new Error('Not authorized to delete this poll')
deriving DecidableEq

/-- `.from('polls').select(...).eq('id', id).single()`: the poll row with the
given id, if any (`id` is the primary key, so at most one row matches). -/
def findPoll (s : Store) (id : String) : Option Poll :=
  s.polls.find? (fun p => p.id == id)

/-- `.from('votes').select('id').eq('poll_id', pollId).eq('user_id', userId)
.single()`: `.single()` yields the row when exactly one matches and an error
otherwise (no rows, or more than one row). -/
def singleVoteRow (s : Store) (pollId userId : String) : Except String Vote :=
  match s.votes.filter (fun v => v.poll_id == pollId && v.user_id == userId) with
  | [v] => Except.ok v
  | [] => Except.error "no rows returned"
  | _ => Except.error "multiple rows returned"

/-- The error handling of `hasUserVoted` applied to the result of the
`.single()` query: `if (error) return false; return !!vote` — any error at
all, a missing row included, is treated as "has not voted". -/
def hasUserVotedRes (r : Except String Vote) : Bool :=
  match r with
  | Except.error _ => false
  | Except.ok _ => true

/-- `hasUserVoted(pollId, userId)` from `lib/votes`. -/
def hasUserVoted (s : Store) (pollId userId : String) : Bool :=
  hasUserVotedRes (singleVoteRow s pollId userId)

/-- `p.expires_at && new Date(p.expires_at) < new Date()` at current time
`now`: a null expiry never expires, otherwise strictly-before comparison. -/
def isExpired (p : Poll) (now : Nat) : Bool :=
  match p.expires_at with
  | some e => e < now
  | none => false

/-- What `submitVote` hands back: the `{ vote, error }` object returned to the
caller, plus the store as left behind by the call (the side effect). -/
structure SubmitOutcome where
  vote : Option Vote
  error : Option VoteError
  store : Store
deriving DecidableEq

/-- The `.from('votes').insert({...}).select().single()` step of `submitVote`:
the unique constraint on `(poll_id, user_id)` rejects the insert with a
duplicate-key error when a row for the pair already exists; otherwise the row
is inserted (the store assigns `id := newId` and `created_at := now`) and
returned. -/
def insertVote (s : Store) (newId : String) (now : Nat)
    (pollId userId : String) (optionIndex : Int) : SubmitOutcome :=
  if s.votes.any (fun v => v.poll_id == pollId && v.user_id == userId) then
    { vote := none, error := some VoteError.duplicateKey, store := s }
  else
    let v : Vote := { id := newId, created_at := now, poll_id := pollId,
                      user_id := userId, option_index := optionIndex }
    { vote := some v, error := none,
      store := { s with votes := s.votes ++ [v] } }

/-- `submitVote` with one store snapshot per round trip: `sc` is the store the
duplicate pre-check reads, `sp` the one the poll `select` reads, and `si` the
one the insert executes against.  Each `await` is a separate round trip, so a
concurrent writer may change the store between the steps; the sequential call
is the special case `sc = sp = si`. -/
def submitVoteRT (sc sp si : Store) (newId : String) (now : Nat)
    (pollId userId : String) (optionIndex : Int) : SubmitOutcome :=
  if hasUserVoted sc pollId userId then
    { vote := none, error := some VoteError.alreadyVoted, store := si }
  else
    match findPoll sp pollId with
    | none => { vote := none, error := some VoteError.pollNotFound, store := si }
    | some poll =>
      if isExpired poll now then
        { vote := none, error := some VoteError.pollExpired, store := si }
      else if optionIndex < 0 || (poll.options.length : Int) ≤ optionIndex then
        { vote := none, error := some VoteError.invalidOption, store := si }
      else
        insertVote si newId now pollId userId optionIndex

/-- `submitVote({ pollId, userId, optionIndex })` from `lib/votes`, run without
interference: every round trip sees the same store. -/
def submitVote (s : Store) (newId : String) (now : Nat)
    (pollId userId : String) (optionIndex : Int) : SubmitOutcome :=
  submitVoteRT s s s newId now pollId userId optionIndex

/-- `.from('votes').select('option_index').eq('poll_id', pollId)`: all vote
rows of one poll. -/
def votesFor (s : Store) (pollId : String) : List Vote :=
  s.votes.filter (fun v => v.poll_id == pollId)

/-- One step of the counting loop, `results[vote.option_index]++`: increment
the bucket at position `i` when `0 ≤ i < results.length`.  (An out-of-range
index would make the JavaScript array sparse/NaN; such indices never occur
under the range check done at insert, and the claims about the tally all
assume in-range indices, so the model leaves the list unchanged there.) -/
def bumpAt : List Nat → Int → List Nat
  | [], _ => []
  | x :: xs, i => if i = 0 then (x + 1) :: xs else x :: bumpAt xs (i - 1)

/-- `const results = new Array(n).fill(0); votes.forEach(v =>
results[v.option_index]++)`. -/
def tallyVotes (n : Nat) (vs : List Vote) : List Nat :=
  vs.foldl (fun acc v => bumpAt acc v.option_index) (List.replicate n 0)

/-- `getPollResults(pollId)` from `lib/votes`: fetch the poll's votes, fetch
the poll (for its option count), and count votes per option.  Returns the
`{ results, error }` pair; a missing poll yields `([], Poll not found)`.
(The source's early return of a votes-query failure is a store-failure path;
the deterministic store model's select never fails.) -/
def getPollResults (s : Store) (pollId : String) : List Nat × Option VoteError :=
  let vs := votesFor s pollId
  match findPoll s pollId with
  | none => ([], some VoteError.pollNotFound)
  | some poll => (tallyVotes poll.options.length vs, none)

/-- Body of the callback `subscribeToResults` registers for change
notifications: `const { results } = await getPollResults(pollId);
onUpdate(results)` — exactly this value reaches `onUpdate`; the `error`
component of `getPollResults` is discarded and the subscription stays
registered. -/
def notificationPayload (s : Store) (pollId : String) : List Nat :=
  (getPollResults s pollId).1

/-- What `deletePoll` hands back: the `{ success, error }` object plus the
store as left behind. -/
structure DeleteOutcome where
  success : Bool
  error : Option VoteError
  store : Store
deriving DecidableEq

/-- `deletePoll(id, userId)` from `lib/polls`: read the poll's `created_by`;
if the poll is missing or owned by someone else, fail without touching the
store; otherwise delete the poll's votes, then the poll. -/
def deletePoll (s : Store) (id userId : String) : DeleteOutcome :=
  match findPoll s id with
  | none => { success := false, error := some VoteError.notAuthorized, store := s }
  | some poll =>
    if poll.created_by ≠ userId then
      { success := false, error := some VoteError.notAuthorized, store := s }
    else
      let s1 : Store := { s with votes := s.votes.filter (fun v => !(v.poll_id == id)) }
      let s2 : Store := { s1 with polls := s1.polls.filter (fun p => !(p.id == id)) }
      { success := true, error := none, store := s2 }

/-- A JSON value, the result of `request.json()` in the route handler. -/
inductive Json where
  | null
  | bool (b : Bool)
  | num (n : Int)
  | str (s : String)
  | arr (elems : List Json)
  | obj (fields : List (String × Json))

/-- Field lookup on a JSON object; anything that is not an object has no
fields. -/
def Json.getField (j : Json) (key : String) : Option Json :=
  match j with
  | Json.obj fields => (fields.find? (fun kv => kv.1 == key)).map (fun kv => kv.2)
  | _ => none

/-- One element of the validated `options` array: `z.object({ text:
z.string().min(1) })`. -/
structure PollOption where
  text : String
deriving DecidableEq

/-- The data `pollSchema.parse` returns on success. -/
structure PollData where
  question : String
  options : List PollOption
deriving DecidableEq

/-- Parse one entry of the `options` array: an object whose `text` field is a
string of length at least 1. -/
def parseOption (j : Json) : Option PollOption :=
  match j.getField "text" with
  | some (Json.str t) => if 1 ≤ t.length then some { text := t } else none
  | _ => none

/-- Parse every entry of the `options` array; any invalid entry fails the
whole parse. -/
def parseOptionList : List Json → Option (List PollOption)
  | [] => some []
  | o :: os =>
    match parseOption o, parseOptionList os with
    | some p, some ps => some (p :: ps)
    | _, _ => none

/-- `pollSchema.parse(body)` from `app/api/polls/route.ts`: an object with a
`question` string of length at least 5 and an `options` array of at least 2
valid option objects; `none` stands for the thrown `ZodError`. -/
def pollSchemaParse (j : Json) : Option PollData :=
  match j.getField "question", j.getField "options" with
  | some (Json.str q), some (Json.arr os) =>
    if 5 ≤ q.length then
      match parseOptionList os with
      | some opts =>
        if 2 ≤ opts.length then some { question := q, options := opts } else none
      | none => none
    else none
  | _, _ => none

/-- The three responses the `POST` handler can produce. -/
inductive PostResponse where
  | created (data : PollData)  -- 201, { message, data: validatedData }
  | badRequest                 -- 400, the ZodError branch
  | serverError                -- 500, any other thrown error
deriving DecidableEq

/-- HTTP status of a handler response. -/
def statusOf : PostResponse → Nat
  | PostResponse.created _ => 201
  | PostResponse.badRequest => 400
  | PostResponse.serverError => 500

/-- `POST(request)` from `app/api/polls/route.ts`.  `body` is the result of
`request.json()`: a parse failure there throws something that is not a
`ZodError`, landing in the 500 branch.  The store is threaded through
unchanged because the handler performs no store operation at all (the source:
"Here you would typically save the poll... For now, we'll just return a
success response"). -/
def POST (s : Store) (body : Except String Json) : PostResponse × Store :=
  match body with
  | Except.error _ => (PostResponse.serverError, s)
  | Except.ok j =>
    match pollSchemaParse j with
    | some d => (PostResponse.created d, s)
    | none => (PostResponse.badRequest, s)

/-- The request-body shape the claim describes, stated over the JSON value
directly: a `question` string of length at least 5 and an `options` array of
at least 2 objects each carrying a non-empty `text` string. -/
def ValidPollBody (j : Json) : Prop :=
  ∃ q os, j.getField "question" = some (Json.str q) ∧
    j.getField "options" = some (Json.arr os) ∧
    5 ≤ q.length ∧ 2 ≤ os.length ∧
    ∀ o ∈ os, ∃ t, o.getField "text" = some (Json.str t) ∧ 1 ≤ t.length

/-! Concrete fixtures used by witnesses and counterexamples. -/

/-- A live two-option poll. -/
def pollRed : Poll :=
  { id := "p1", created_at := 0, question := "Best color?",
    options := ["Red", "Blue"], created_by := "owner1", expires_at := none,
    is_public := true }

/-- A poll whose expiry (time 3) lies in the past for any `now > 3`. -/
def pollOld : Poll :=
  { id := "pe", created_at := 0, question := "Old question?",
    options := ["A", "B"], created_by := "owner1", expires_at := some 3,
    is_public := true }

/-- A vote by `u1` on `p1`. -/
def voteU1 : Vote :=
  { id := "v1", created_at := 1, poll_id := "p1", user_id := "u1", option_index := 0 }

/-- Store with the live poll and no votes. -/
def storeFresh : Store := { polls := [pollRed], votes := [] }

/-- Store where `u1` has already voted on `p1`. -/
def storeVoted : Store := { polls := [pollRed], votes := [voteU1] }

/-- Store with the expired poll. -/
def storeExpired : Store := { polls := [pollOld], votes := [] }

/-- Store holding a vote for a poll whose row has been deleted. -/
def storeOrphan : Store := { polls := [], votes := [voteU1] }

/-- Store with three votes on the two-option poll (two for option 0, one for
option 1). -/
def storeTally : Store :=
  { polls := [pollRed],
    votes := [ voteU1,
               { id := "v2", created_at := 2, poll_id := "p1", user_id := "u2",
                 option_index := 1 },
               { id := "v3", created_at := 3, poll_id := "p1", user_id := "u3",
                 option_index := 0 } ] }

/-- A request body satisfying the poll schema. -/
def bodyOk : Json :=
  Json.obj [("question", Json.str "Best color?"),
            ("options", Json.arr [Json.obj [("text", Json.str "Red")],
                                  Json.obj [("text", Json.str "Blue")]])]

/-- At most one vote per (poll, voter) pair: the uniqueness constraint the
votes table enforces durably. -/
def UniqueVotes (s : Store) : Prop :=
  s.votes.Pairwise (fun a b => a.poll_id ≠ b.poll_id ∨ a.user_id ≠ b.user_id)

instance (s : Store) : Decidable (UniqueVotes s) := by
  unfold UniqueVotes; infer_instance

/-! Claim theorems. -/

/-- C2: the four pre-checks of `submitVote` run in the fixed order duplicate,
existence, expiration, range, each failing check producing its own distinct
error: an existing vote yields AlreadyVoted, a missing poll yields
PollNotFound, an expiry strictly before `now` yields PollExpired, and an
option index outside the poll's range yields InvalidOption; in particular an
expired poll fails with PollExpired even when the option index is also out of
range. -/
theorem C2_precheck_order (s : Store) (nid : String) (now : Nat)
    (pid uid : String) (oi : Int) :
    (hasUserVoted s pid uid = true →
      (submitVote s nid now pid uid oi).error = some VoteError.alreadyVoted) ∧
    (hasUserVoted s pid uid = false → findPoll s pid = none →
      (submitVote s nid now pid uid oi).error = some VoteError.pollNotFound) ∧
    (∀ p, hasUserVoted s pid uid = false → findPoll s pid = some p →
      isExpired p now = true →
      (submitVote s nid now pid uid oi).error = some VoteError.pollExpired) ∧
    (∀ p, hasUserVoted s pid uid = false → findPoll s pid = some p →
      isExpired p now = false → (oi < 0 ∨ (p.options.length : Int) ≤ oi) →
      (submitVote s nid now pid uid oi).error = some VoteError.invalidOption) := by
  refine ⟨?_, ?_, ?_, ?_⟩
  · intro hv
    simp [submitVote, submitVoteRT, hv]
  · intro hv hp
    simp [submitVote, submitVoteRT, hv, hp]
  · intro p hv hp he
    simp [submitVote, submitVoteRT, hv, hp, he]
  · intro p hv hp he ho
    have hb : (decide (oi < 0) || decide ((p.options.length : Int) ≤ oi)) = true := by
      rcases ho with h | h <;> simp [h]
    simp [submitVote, submitVoteRT, hv, hp, he, hb]

/-- C2 witness: against the expired two-option poll, an out-of-range index 99
still fails with PollExpired. -/
theorem C2_witness :
    (submitVote storeExpired "n" 10 "pe" "u1" 99).error = some VoteError.pollExpired :=
  (C2_precheck_order storeExpired "n" 10 "pe" "u1" 99).2.2.1 pollOld
    (by decide) (by decide) (by decide)

/-- C1: at the insert step, when two submissions for the same (poll, voter)
pair both passed the pre-checks, exactly one insert succeeds — and the code
returns the loser's raw duplicate-constraint error as is, which is a distinct
error kind from the AlreadyVoted error of the pre-check, contradicting the
claim that it is surfaced as the same AlreadyVoted error.  Submission A runs
to completion against `storeFresh`; submission B's pre-checks also read
`storeFresh` (before A's insert committed), but its insert executes against
A's resulting store. -/
theorem C1_race_unmapped :
    (submitVote storeFresh "vA" 5 "p1" "u1" 0).vote.isSome = true ∧
    (submitVoteRT storeFresh storeFresh (submitVote storeFresh "vA" 5 "p1" "u1" 0).store
      "vB" 6 "p1" "u1" 1).vote = none ∧
    (submitVoteRT storeFresh storeFresh (submitVote storeFresh "vA" 5 "p1" "u1" 0).store
      "vB" 6 "p1" "u1" 1).error = some VoteError.duplicateKey ∧
    (submitVoteRT storeFresh storeFresh (submitVote storeFresh "vA" 5 "p1" "u1" 0).store
      "vB" 6 "p1" "u1" 1).error ≠ some VoteError.alreadyVoted ∧
    (submitVoteRT storeFresh storeFresh (submitVote storeFresh "vA" 5 "p1" "u1" 0).store
      "vB" 6 "p1" "u1" 1).store = (submitVote storeFresh "vA" 5 "p1" "u1" 0).store := by
  decide

/-- C5 counterexample: the claim as stated fails when the voter already holds
a vote: against the live two-option poll (existing, not expired) with the
out-of-range index 7, a voter who already voted gets AlreadyVoted, not
InvalidOption. -/
theorem C5_counterexample :
    findPoll storeVoted "p1" = some pollRed ∧
    isExpired pollRed 5 = false ∧
    (pollRed.options.length : Int) ≤ 7 ∧
    (submitVote storeVoted "n" 5 "p1" "u1" 7).error ≠ some VoteError.invalidOption ∧
    (submitVote storeVoted "n" 5 "p1" "u1" 7).error = some VoteError.alreadyVoted := by
  decide

/-- C5 amended: when additionally the duplicate pre-check finds no existing
vote for the pair, an out-of-range option index fails with InvalidOption and
the store — the vote table in particular — is left unchanged. -/
theorem C5_amended (s : Store) (nid : String) (now : Nat) (pid uid : String)
    (oi : Int) (p : Poll)
    (hv : hasUserVoted s pid uid = false)
    (hp : findPoll s pid = some p)
    (he : isExpired p now = false)
    (ho : oi < 0 ∨ (p.options.length : Int) ≤ oi) :
    (submitVote s nid now pid uid oi).error = some VoteError.invalidOption ∧
    (submitVote s nid now pid uid oi).store = s := by
  have hb : (decide (oi < 0) || decide ((p.options.length : Int) ≤ oi)) = true := by
    rcases ho with h | h <;> simp [h]
  constructor <;> simp [submitVote, submitVoteRT, hv, hp, he, hb]

/-- C5 witness: a fresh voter submitting index 7 on the live two-option poll
gets InvalidOption and the store is untouched. -/
theorem C5_witness :
    (submitVote storeFresh "n" 5 "p1" "u1" 7).error = some VoteError.invalidOption ∧
    (submitVote storeFresh "n" 5 "p1" "u1" 7).store = storeFresh :=
  C5_amended storeFresh "n" 5 "p1" "u1" 7 pollRed (by decide) (by decide)
    (by decide) (Or.inr (by decide))

/-- C9: when the poll does not exist or its recorded creator differs from the
requesting user, `deletePoll` returns `success = false` with the
not-authorized error and leaves the store — both tables — completely
unchanged. -/
theorem C9_unauthorized_no_mutation (s : Store) (id userId : String)
    (h : findPoll s id = none ∨
      ∃ p, findPoll s id = some p ∧ p.created_by ≠ userId) :
    deletePoll s id userId =
      { success := false, error := some VoteError.notAuthorized, store := s } := by
  rcases h with h | ⟨p, hp, hne⟩
  · simp [deletePoll, h]
  · simp [deletePoll, hp, hne]

/-- C9 witness: a non-owner's delete of the live poll fails and changes
nothing. -/
theorem C9_witness :
    deletePoll storeVoted "p1" "intruder" =
      { success := false, error := some VoteError.notAuthorized, store := storeVoted } :=
  C9_unauthorized_no_mutation storeVoted "p1" "intruder"
    (Or.inr ⟨pollRed, by decide, by decide⟩)

/-- C4: `getPollResults` reports PollNotFound exactly when the poll row is
missing, and for an existing poll the error component is always `none` — the
result is a tally, never an error. -/
theorem C4_error_iff_missing (s : Store) (pid : String) :
    ((getPollResults s pid).2 = some VoteError.pollNotFound ↔ findPoll s pid = none) ∧
    (∀ p, findPoll s pid = some p → (getPollResults s pid).2 = none) := by
  cases hfp : findPoll s pid <;> simp [getPollResults, hfp]

/-- C4 witness: the store with three recorded votes yields an error-free
tally for the existing poll. -/
theorem C4_witness : (getPollResults storeTally "p1").2 = none :=
  (C4_error_iff_missing storeTally "p1").2 pollRed (by decide)

/-- C7: the notification callback of `subscribeToResults` swallows a failed
recomputation — with the poll row deleted mid-subscription, `getPollResults`
reports PollNotFound, yet the value handed to `onUpdate` is the empty list
(as if it were a tally); the error is discarded, the subscription is not
terminated and the caller is not notified, contradicting the claim. -/
theorem C7_callback_swallows_error :
    (getPollResults storeOrphan "p1").2 = some VoteError.pollNotFound ∧
    notificationPayload storeOrphan "p1" = [] := by
  decide

/-- C8: a successful `deletePoll` implies the requester owned the poll, and
afterwards neither the poll row nor any vote referencing the poll remains in
the store. -/
theorem C8_owner_delete_cascades (s : Store) (id userId : String)
    (h : (deletePoll s id userId).success = true) :
    (∃ p, findPoll s id = some p ∧ p.created_by = userId) ∧
    findPoll (deletePoll s id userId).store id = none ∧
    (∀ v ∈ (deletePoll s id userId).store.votes, v.poll_id ≠ id) := by
  cases hfp : findPoll s id with
  | none => simp [deletePoll, hfp] at h
  | some p =>
    by_cases hc : p.created_by = userId
    · refine ⟨⟨p, rfl, hc⟩, ?_, ?_⟩
      · have hs : (deletePoll s id userId).store.polls =
            s.polls.filter (fun q => !(q.id == id)) := by
          simp [deletePoll, hfp, hc]
        unfold findPoll
        rw [hs, List.find?_eq_none]
        intro q hq
        have := (List.mem_filter.mp hq).2
        simpa using this
      · intro v hv
        have hsv : (deletePoll s id userId).store.votes =
            s.votes.filter (fun v => !(v.poll_id == id)) := by
          simp [deletePoll, hfp, hc]
        rw [hsv] at hv
        have := (List.mem_filter.mp hv).2
        simpa using this
    · simp [deletePoll, hfp, hc] at h

/-- C8 witness: the owner deletes the poll with three votes; ownership held,
and neither the poll nor any of its votes survives. -/
theorem C8_witness :
    (∃ p, findPoll storeTally "p1" = some p ∧ p.created_by = "owner1") ∧
    findPoll (deletePoll storeTally "p1" "owner1").store "p1" = none ∧
    (∀ v ∈ (deletePoll storeTally "p1" "owner1").store.votes, v.poll_id ≠ "p1") :=
  C8_owner_delete_cascades storeTally "p1" "owner1" (by decide)

/-- A vote of the store whose keys match the pair passes the duplicate-check
filter. -/
theorem mem_voteFilter (s : Store) (pid uid : String) (v : Vote)
    (hv : v ∈ s.votes) (hpid : v.poll_id = pid) (huid : v.user_id = uid) :
    v ∈ s.votes.filter (fun v => v.poll_id == pid && v.user_id == uid) :=
  List.mem_filter.mpr ⟨hv, by simp [hpid, huid]⟩

/-- When no vote of the store matches the pair, the duplicate-check filter is
empty. -/
theorem voteFilter_eq_nil (s : Store) (pid uid : String)
    (h : ∀ v ∈ s.votes, ¬(v.poll_id = pid ∧ v.user_id = uid)) :
    s.votes.filter (fun v => v.poll_id == pid && v.user_id == uid) = [] := by
  rw [List.filter_eq_nil_iff]
  intro v hv
  simp only [Bool.and_eq_true, beq_iff_eq, not_and]
  intro hp hu
  exact absurd ⟨hp, hu⟩ (h v hv)

/-- A successful `submitVote` went through the insert branch: the store gained
exactly the returned vote, no prior vote of the pair existed at insert time,
and the returned vote carries the pair's keys. -/
theorem submitVote_success_store (s : Store) (nid : String) (now : Nat)
    (pid uid : String) (oi : Int) (w : Vote)
    (hw : (submitVote s nid now pid uid oi).vote = some w) :
    (submitVote s nid now pid uid oi).store.votes = s.votes ++ [w] ∧
    s.votes.filter (fun v => v.poll_id == pid && v.user_id == uid) = [] ∧
    w.poll_id = pid ∧ w.user_id = uid := by
  unfold submitVote submitVoteRT at hw ⊢
  cases h1 : hasUserVoted s pid uid with
  | true => simp [h1] at hw
  | false =>
  rw [h1] at hw
  simp only [Bool.false_eq_true, if_false] at hw ⊢
  cases h2 : findPoll s pid with
  | none => rw [h2] at hw; simp at hw
  | some p =>
  rw [h2] at hw
  simp only at hw ⊢
  cases h3 : isExpired p now with
  | true => rw [h3] at hw; simp at hw
  | false =>
  rw [h3] at hw
  simp only [Bool.false_eq_true, if_false] at hw ⊢
  cases h4 : (decide (oi < 0) || decide ((p.options.length : Int) ≤ oi)) with
  | true => rw [h4] at hw; simp at hw
  | false =>
  rw [h4] at hw
  simp only [Bool.false_eq_true, if_false] at hw ⊢
  unfold insertVote at hw ⊢
  cases h5 : s.votes.any (fun v => v.poll_id == pid && v.user_id == uid) with
  | true => rw [h5] at hw; simp at hw
  | false =>
  rw [h5] at hw
  simp only [Bool.false_eq_true, if_false, Option.some.injEq] at hw ⊢
  subst hw
  refine ⟨rfl, ?_, rfl, rfl⟩
  rw [List.filter_eq_nil_iff]
  intro v hv
  have := List.any_eq_false.mp h5 v hv
  simpa using this

/-- C6: `hasUserVoted` never fails.  Under the store's uniqueness constraint
it returns true exactly when a vote record for the pair exists; any error of
the underlying single-row lookup (a missing row included) yields false rather
than an error; it is false whenever no record for the pair exists (missing
poll or voter included, and independent of other voters' records); and it is
true on the store left behind by that voter's successful `submitVote`. -/
theorem C6_hasVoted_total :
    (∀ s pid uid, UniqueVotes s →
      (hasUserVoted s pid uid = true ↔
        ∃ v ∈ s.votes, v.poll_id = pid ∧ v.user_id = uid)) ∧
    (∀ e, hasUserVotedRes (Except.error e) = false) ∧
    (∀ s pid uid, (∀ v ∈ s.votes, ¬(v.poll_id = pid ∧ v.user_id = uid)) →
      hasUserVoted s pid uid = false) ∧
    (∀ s nid now pid uid oi w,
      (submitVote s nid now pid uid oi).vote = some w →
      hasUserVoted (submitVote s nid now pid uid oi).store pid uid = true) := by
  refine ⟨?_, fun e => rfl, ?_, ?_⟩
  · intro s pid uid hu
    constructor
    · intro ht
      rcases hl : s.votes.filter (fun v => v.poll_id == pid && v.user_id == uid) with
        _ | ⟨a, _ | ⟨b, t⟩⟩
      · simp [hasUserVoted, singleVoteRow, hl, hasUserVotedRes] at ht
      · have ha : a ∈ s.votes.filter (fun v => v.poll_id == pid && v.user_id == uid) := by
          rw [hl]; exact List.mem_cons_self a []
        have ha2 := List.mem_filter.mp ha
        have hk : a.poll_id = pid ∧ a.user_id = uid := by simpa using ha2.2
        exact ⟨a, ha2.1, hk⟩
      · simp [hasUserVoted, singleVoteRow, hl, hasUserVotedRes] at ht
    · rintro ⟨v, hv, hpid, huid⟩
      have hvf := mem_voteFilter s pid uid v hv hpid huid
      rcases hl : s.votes.filter (fun v => v.poll_id == pid && v.user_id == uid) with
        _ | ⟨a, _ | ⟨b, t⟩⟩
      · rw [hl] at hvf; simp at hvf
      · simp [hasUserVoted, singleVoteRow, hl, hasUserVotedRes]
      · exfalso
        have hpw : (s.votes.filter
            (fun v => v.poll_id == pid && v.user_id == uid)).Pairwise
            (fun a b => a.poll_id ≠ b.poll_id ∨ a.user_id ≠ b.user_id) :=
          List.Pairwise.sublist (List.filter_sublist s.votes) hu
        rw [hl] at hpw
        have hr := (List.pairwise_cons.mp hpw).1 b (List.mem_cons_self b t)
        have haf : a ∈ s.votes.filter (fun v => v.poll_id == pid && v.user_id == uid) := by
          rw [hl]; exact List.mem_cons_self a (b :: t)
        have hbf : b ∈ s.votes.filter (fun v => v.poll_id == pid && v.user_id == uid) := by
          rw [hl]; exact List.mem_cons_of_mem a (List.mem_cons_self b t)
        have ha2 : a.poll_id = pid ∧ a.user_id = uid := by
          simpa using (List.mem_filter.mp haf).2
        have hb2 : b.poll_id = pid ∧ b.user_id = uid := by
          simpa using (List.mem_filter.mp hbf).2
        rcases hr with h | h
        · exact h (ha2.1.trans hb2.1.symm)
        · exact h (ha2.2.trans hb2.2.symm)
  · intro s pid uid h
    simp [hasUserVoted, singleVoteRow, voteFilter_eq_nil s pid uid h, hasUserVotedRes]
  · intro s nid now pid uid oi w hw
    obtain ⟨hst, hfilt, hpid, huid⟩ := submitVote_success_store s nid now pid uid oi w hw
    have hfull : ((submitVote s nid now pid uid oi).store.votes).filter
        (fun v => v.poll_id == pid && v.user_id == uid) = [w] := by
      rw [hst, List.filter_append, hfilt]
      simp [hpid, huid]
    simp [hasUserVoted, singleVoteRow, hfull, hasUserVotedRes]

/-- C6 witness: a fresh voter's successful submission flips `hasUserVoted` to
true on the resulting store. -/
theorem C6_witness :
    hasUserVoted (submitVote storeFresh "vW" 7 "p1" "u9" 1).store "p1" "u9" = true :=
  C6_hasVoted_total.2.2.2 storeFresh "vW" 7 "p1" "u9" 1
    { id := "vW", created_at := 7, poll_id := "p1", user_id := "u9", option_index := 1 }
    (by decide)

/-- `bumpAt` preserves the length of the bucket list. -/
theorem bumpAt_length (l : List Nat) (i : Int) : (bumpAt l i).length = l.length := by
  induction l generalizing i with
  | nil => rfl
  | cons x xs ih => by_cases h : i = 0 <;> simp [bumpAt, h, ih]

/-- An in-range `bumpAt` raises the total of the buckets by one. -/
theorem bumpAt_sum (l : List Nat) (i : Int) (h0 : 0 ≤ i)
    (hl : i < (l.length : Int)) : (bumpAt l i).sum = l.sum + 1 := by
  induction l generalizing i with
  | nil => simp only [List.length_nil, Nat.cast_zero] at hl; omega
  | cons x xs ih =>
    by_cases h : i = 0
    · simp [bumpAt, h]; omega
    · have h0' : 0 ≤ i - 1 := by omega
      have hl' : i - 1 < (xs.length : Int) := by
        simp only [List.length_cons] at hl; push_cast at hl ⊢; omega
      simp [bumpAt, h, ih (i - 1) h0' hl']
      omega

/-- `bumpAt` adds one at position `i` and leaves the other buckets alone. -/
theorem bumpAt_getD (l : List Nat) (i : Int) (j : Nat) (hj : j < l.length) :
    (bumpAt l i).getD j 0 = l.getD j 0 + (if (j : Int) = i then 1 else 0) := by
  induction l generalizing i j with
  | nil => simp at hj
  | cons x xs ih =>
    by_cases h : i = 0
    · subst h
      cases j with
      | zero => simp [bumpAt]
      | succ k =>
        simp [bumpAt]
        omega
    · cases j with
      | zero =>
        simp [bumpAt, h]
        omega
      | succ k =>
        have hk : k < xs.length := by
          simp only [List.length_cons] at hj; omega
        have hcast : (((k + 1 : Nat)) : Int) = (k : Int) + 1 := by push_cast; ring
        simp only [bumpAt, if_neg h, List.getD_cons_succ, ih (i - 1) k hk]
        by_cases hc : (k : Int) = i - 1
        · have hc2 : ((k + 1 : Nat) : Int) = i := by push_cast; omega
          simp [hc, hc2]
        · have hc2 : ¬ ((k + 1 : Nat) : Int) = i := by push_cast; omega
          simp [hc, hc2]
          omega

/-- The counting fold preserves the length of the bucket list. -/
theorem tallyAux_length (vs : List Vote) (acc : List Nat) :
    (vs.foldl (fun a v => bumpAt a v.option_index) acc).length = acc.length := by
  induction vs generalizing acc with
  | nil => rfl
  | cons v vs ih => rw [List.foldl_cons, ih, bumpAt_length]

/-- With every index in range, the counting fold raises the total of the
buckets by the number of votes folded in. -/
theorem tallyAux_sum (vs : List Vote) (acc : List Nat)
    (hin : ∀ v ∈ vs, 0 ≤ v.option_index ∧ v.option_index < (acc.length : Int)) :
    (vs.foldl (fun a v => bumpAt a v.option_index) acc).sum = acc.sum + vs.length := by
  induction vs generalizing acc with
  | nil => simp
  | cons v vs ih =>
    have hv := hin v (List.mem_cons_self v vs)
    have hrest : ∀ u ∈ vs, 0 ≤ u.option_index ∧
        u.option_index < ((bumpAt acc v.option_index).length : Int) := by
      intro u hu
      rw [bumpAt_length]
      exact hin u (List.mem_cons_of_mem v hu)
    rw [List.foldl_cons, ih (bumpAt acc v.option_index) hrest,
        bumpAt_sum acc v.option_index hv.1 hv.2, List.length_cons]
    omega

/-- With every index in range, bucket `j` after the counting fold holds its
initial value plus the number of folded votes whose option index is `j`. -/
theorem tallyAux_getD (vs : List Vote) (acc : List Nat) (j : Nat)
    (hj : j < acc.length)
    (hin : ∀ v ∈ vs, 0 ≤ v.option_index ∧ v.option_index < (acc.length : Int)) :
    (vs.foldl (fun a v => bumpAt a v.option_index) acc).getD j 0 =
      acc.getD j 0 + vs.countP (fun v => v.option_index == (j : Int)) := by
  induction vs generalizing acc with
  | nil => simp
  | cons v vs ih =>
    have hrest : ∀ u ∈ vs, 0 ≤ u.option_index ∧
        u.option_index < ((bumpAt acc v.option_index).length : Int) := by
      intro u hu
      rw [bumpAt_length]
      exact hin u (List.mem_cons_of_mem v hu)
    rw [List.foldl_cons,
        ih (bumpAt acc v.option_index) (by rw [bumpAt_length]; exact hj) hrest,
        bumpAt_getD acc v.option_index j hj, List.countP_cons]
    by_cases hc : v.option_index = (j : Int)
    · simp [hc]; omega
    · have hc2 : ¬ ((j : Int) = v.option_index) := fun h => hc h.symm
      simp [hc, hc2]

/-- Every bucket of the zero-initialized list reads zero. -/
theorem replicate_getD (n j : Nat) : (List.replicate n (0 : Nat)).getD j 0 = 0 := by
  induction n generalizing j with
  | zero => simp
  | succ m ih => cases j <;> simp [List.replicate_succ, ih]

/-- C3: for a poll with `n` options whose vote records all carry indices in
`[0, n)`, `getPollResults` returns, error-free, a list of exactly `n` counts
whose total equals the number of the poll's vote records, the count at each
position `i` being the number of votes with option index `i`; with no votes
the result is the all-zero list of length `n`. -/
theorem C3_tally_correct (s : Store) (pid : String) (p : Poll)
    (hp : findPoll s pid = some p) (_hn : 2 ≤ p.options.length)
    (hin : ∀ v ∈ votesFor s pid,
      0 ≤ v.option_index ∧ v.option_index < (p.options.length : Int)) :
    (getPollResults s pid).2 = none ∧
    (getPollResults s pid).1.length = p.options.length ∧
    (getPollResults s pid).1.sum = (votesFor s pid).length ∧
    (∀ i, i < p.options.length →
      (getPollResults s pid).1.getD i 0 =
        (votesFor s pid).countP (fun v => v.option_index == (i : Int))) ∧
    (votesFor s pid = [] →
      (getPollResults s pid).1 = List.replicate p.options.length 0) := by
  have hres : getPollResults s pid =
      (tallyVotes p.options.length (votesFor s pid), none) := by
    simp [getPollResults, hp]
  rw [hres]
  have hinr : ∀ v ∈ votesFor s pid, 0 ≤ v.option_index ∧
      v.option_index < ((List.replicate p.options.length (0 : Nat)).length : Int) := by
    simpa using hin
  refine ⟨rfl, ?_, ?_, ?_, ?_⟩
  · rw [tallyVotes, tallyAux_length, List.length_replicate]
  · rw [tallyVotes, tallyAux_sum (votesFor s pid) _ hinr]
    simp
  · intro i hi
    rw [tallyVotes, tallyAux_getD (votesFor s pid) _ i (by simpa using hi) hinr,
        replicate_getD]
    omega
  · intro h
    simp [tallyVotes, h]

/-- C3 witness: on the store with three in-range votes, the tally's total is
the vote count. -/
theorem C3_witness :
    (getPollResults storeTally "p1").1.sum = (votesFor storeTally "p1").length :=
  (C3_tally_correct storeTally "p1" pollRed (by decide) (by decide) (by decide)).2.2.1

/-- What a successful `parseOption` says about the entry. -/
theorem parseOption_some (j : Json) (p : PollOption)
    (h : parseOption j = some p) :
    j.getField "text" = some (Json.str p.text) ∧ 1 ≤ p.text.length := by
  unfold parseOption at h
  cases hf : j.getField "text" with
  | none => rw [hf] at h; simp at h
  | some jv =>
    rw [hf] at h
    cases jv with
    | str t =>
      simp only at h
      by_cases ht : 1 ≤ t.length
      · rw [if_pos ht] at h
        simp only [Option.some.injEq] at h
        subst h
        exact ⟨rfl, ht⟩
      · rw [if_neg ht] at h; simp at h
    | null => simp at h
    | bool b => simp at h
    | num n => simp at h
    | arr es => simp at h
    | obj fs => simp at h

/-- A valid entry parses. -/
theorem parseOption_of (j : Json) (t : String)
    (h : j.getField "text" = some (Json.str t)) (ht : 1 ≤ t.length) :
    parseOption j = some { text := t } := by
  unfold parseOption
  rw [h]
  dsimp only
  rw [if_pos ht]

/-- What a successful `parseOptionList` says about the entries. -/
theorem parseOptionList_some (os : List Json) (opts : List PollOption)
    (h : parseOptionList os = some opts) :
    opts.length = os.length ∧
    (∀ o ∈ os, ∃ t, o.getField "text" = some (Json.str t) ∧ 1 ≤ t.length) ∧
    (∀ q ∈ opts, 1 ≤ q.text.length) := by
  induction os generalizing opts with
  | nil =>
    simp only [parseOptionList, Option.some.injEq] at h
    subst h
    simp
  | cons o os ih =>
    unfold parseOptionList at h
    cases hp : parseOption o with
    | none => rw [hp] at h; simp at h
    | some p =>
      rw [hp] at h
      cases hl : parseOptionList os with
      | none => rw [hl] at h; simp at h
      | some ps =>
        rw [hl] at h
        simp only [Option.some.injEq] at h
        subst h
        obtain ⟨hlen, hall, hq⟩ := ih ps hl
        have hop := parseOption_some o p hp
        refine ⟨by simp [hlen], ?_, ?_⟩
        · intro x hx
          rcases List.mem_cons.mp hx with rfl | hx
          · exact ⟨p.text, hop.1, hop.2⟩
          · exact hall x hx
        · intro q hqm
          rcases List.mem_cons.mp hqm with rfl | hqm
          · exact hop.2
          · exact hq q hqm

/-- A list of valid entries parses, preserving the length. -/
theorem parseOptionList_of (os : List Json)
    (h : ∀ o ∈ os, ∃ t, o.getField "text" = some (Json.str t) ∧ 1 ≤ t.length) :
    ∃ opts, parseOptionList os = some opts ∧ opts.length = os.length := by
  induction os with
  | nil => exact ⟨[], rfl, rfl⟩
  | cons o os ih =>
    obtain ⟨t, ht, htl⟩ := h o (List.mem_cons_self o os)
    obtain ⟨opts, hopts, hlen⟩ := ih (fun x hx => h x (List.mem_cons_of_mem o hx))
    refine ⟨{ text := t } :: opts, ?_, by simp [hlen]⟩
    unfold parseOptionList
    rw [parseOption_of o t ht htl, hopts]

/-- `pollSchemaParse` succeeds exactly on bodies of the valid shape. -/
theorem pollSchemaParse_some_iff (j : Json) :
    (∃ d, pollSchemaParse j = some d) ↔ ValidPollBody j := by
  constructor
  · rintro ⟨d, h⟩
    unfold pollSchemaParse at h
    cases hq : j.getField "question" with
    | none => rw [hq] at h; simp at h
    | some jq =>
      rw [hq] at h
      cases ho : j.getField "options" with
      | none => rw [ho] at h; cases jq <;> simp at h
      | some jo =>
        rw [ho] at h
        cases jq with
        | str q =>
          cases jo with
          | arr os =>
            simp only at h
            by_cases hql : 5 ≤ q.length
            · rw [if_pos hql] at h
              cases hpl : parseOptionList os with
              | none => rw [hpl] at h; simp at h
              | some opts =>
                rw [hpl] at h
                dsimp only at h
                by_cases hol : 2 ≤ opts.length
                · obtain ⟨hlen, hall, _⟩ := parseOptionList_some os opts hpl
                  exact ⟨q, os, hq, ho, hql, hlen ▸ hol, hall⟩
                · rw [if_neg hol] at h; simp at h
            · rw [if_neg hql] at h; simp at h
          | null => simp at h
          | bool b => simp at h
          | num n => simp at h
          | str t2 => simp at h
          | obj fs => simp at h
        | null => simp at h
        | bool b => simp at h
        | num n => simp at h
        | arr es => simp at h
        | obj fs => simp at h
  · rintro ⟨q, os, hq, ho, hql, hosl, hall⟩
    obtain ⟨opts, hopts, hlen⟩ := parseOptionList_of os hall
    refine ⟨{ question := q, options := opts }, ?_⟩
    unfold pollSchemaParse
    rw [hq, ho]
    dsimp only
    rw [if_pos hql, hopts]
    dsimp only
    rw [if_pos (show 2 ≤ opts.length by omega)]

/-- What a successful `pollSchemaParse` says about the returned data. -/
theorem pollSchemaParse_some_shape (j : Json) (d : PollData)
    (h : pollSchemaParse j = some d) :
    5 ≤ d.question.length ∧ 2 ≤ d.options.length ∧
    ∀ o ∈ d.options, 1 ≤ o.text.length := by
  unfold pollSchemaParse at h
  cases hq : j.getField "question" with
  | none => rw [hq] at h; simp at h
  | some jq =>
    rw [hq] at h
    cases ho : j.getField "options" with
    | none => rw [ho] at h; cases jq <;> simp at h
    | some jo =>
      rw [ho] at h
      cases jq with
      | str q =>
        cases jo with
        | arr os =>
          simp only at h
          by_cases hql : 5 ≤ q.length
          · rw [if_pos hql] at h
            cases hpl : parseOptionList os with
            | none => rw [hpl] at h; simp at h
            | some opts =>
              rw [hpl] at h
              dsimp only at h
              by_cases hol : 2 ≤ opts.length
              · rw [if_pos hol] at h
                simp only [Option.some.injEq] at h
                subst h
                exact ⟨hql, hol, (parseOptionList_some os opts hpl).2.2⟩
              · rw [if_neg hol] at h; simp at h
          · rw [if_neg hql] at h; simp at h
        | null => simp at h
        | bool b => simp at h
        | num n => simp at h
        | str t2 => simp at h
        | obj fs => simp at h
      | null => simp at h
      | bool b => simp at h
      | num n => simp at h
      | arr es => simp at h
      | obj fs => simp at h

/-- C10: for a JSON request body, the handler answers 201 with the parsed
data exactly when the body has a question of at least 5 characters and at
least 2 options each with non-empty text; any JSON body violating the schema
answers 400; the handler persists nothing (the store is untouched); and
whenever 201 is answered the returned data satisfies the schema bounds. -/
theorem C10_post_validation (s : Store) (j : Json) :
    (statusOf (POST s (Except.ok j)).1 = 201 ↔ ValidPollBody j) ∧
    (¬ ValidPollBody j → statusOf (POST s (Except.ok j)).1 = 400) ∧
    (POST s (Except.ok j)).2 = s ∧
    (∀ d, (POST s (Except.ok j)).1 = PostResponse.created d →
      5 ≤ d.question.length ∧ 2 ≤ d.options.length ∧
      ∀ o ∈ d.options, 1 ≤ o.text.length) := by
  cases hps : pollSchemaParse j with
  | none =>
    have hnv : ¬ ValidPollBody j := by
      intro hv
      obtain ⟨d, hd⟩ := (pollSchemaParse_some_iff j).mpr hv
      rw [hps] at hd
      exact Option.noConfusion hd
    refine ⟨?_, fun _ => ?_, ?_, ?_⟩
    · simp [POST, hps, statusOf, hnv]
    · simp [POST, hps, statusOf]
    · simp [POST, hps]
    · intro d hd
      simp [POST, hps] at hd
  | some d0 =>
    have hv : ValidPollBody j := (pollSchemaParse_some_iff j).mp ⟨d0, hps⟩
    refine ⟨?_, fun hnv => absurd hv hnv, ?_, ?_⟩
    · simp [POST, hps, statusOf, hv]
    · simp [POST, hps]
    · intro d hd
      simp only [POST, hps, PostResponse.created.injEq] at hd
      subst hd
      exact pollSchemaParse_some_shape j d0 hps

/-- C10 witness: a well-formed body (question of 11 characters, two non-empty
options) is answered with 201. -/
theorem C10_witness : statusOf (POST storeFresh (Except.ok bodyOk)).1 = 201 :=
  (C10_post_validation storeFresh bodyOk).1.mpr
    ⟨"Best color?",
     [Json.obj [("text", Json.str "Red")], Json.obj [("text", Json.str "Blue")]],
     rfl, rfl, by decide, by decide, by
       intro o ho
       rcases List.mem_cons.mp ho with rfl | ho2
       · exact ⟨"Red", rfl, by decide⟩
       · rcases List.mem_cons.mp ho2 with rfl | ho3
         · exact ⟨"Blue", rfl, by decide⟩
         · exact absurd ho3 (List.not_mem_nil o)⟩

end PollApp
